import Mathlib

/-!
Shallow embedding of the kk-slider download pipeline
(src/download/downloader.rs, src/download/parser.rs, src/errors.rs)
and proofs about the claims of its specification.

Effectful Rust code is modelled by explicit state passing: the local
filesystem is an association list from filenames to byte contents, and
the network / IO outcomes of each attempt are supplied by oracle
environments.  Rust panics are modelled as an explicit result
constructor, since a claim distinguishes panicking from returning Err.
-/

namespace KKSlider

/-- The error enum of src/errors.rs.  Payloads that are foreign types in
Rust (reqwest::Error, std::io::Error, serde_json::Error, StatusCode) are
modelled as strings / numbers. -/
inductive Error where
  | error : String → Error
  | MissingElement : String → Error
  | InvalidSelector : String → Error
  | CouldNotParseNumber : String → Error
  | RequestError : String → Error
  | ResponseStatusError : Nat → String → Error
  | FileError : String → Error
  | JsonError : String → Error
  | MissingUrl : String → Error
deriving DecidableEq, Repr

/-- Result of running a Rust function that may return a value, return an
Err, or panic.  `panicked` carries the panic message. -/
inductive Outcome (α : Type) where
  | ok : α → Outcome α
  | err : Error → Outcome α
  | panicked : String → Outcome α
deriving DecidableEq, Repr

/-- Whether an outcome is a panic. -/
def Outcome.isPanic {α : Type} : Outcome α → Bool
  | .panicked _ => true
  | _ => false

/-- Whether an outcome is an Err. -/
def Outcome.isErr {α : Type} : Outcome α → Bool
  | .err _ => true
  | _ => false

/-- Whether an outcome is Ok. -/
def Outcome.isOk {α : Type} : Outcome α → Bool
  | .ok _ => true
  | _ => false

/-- The SongType enum of src/download/parser.rs. -/
inductive SongType where
  | Live
  | Aircheck
  | AircheckCheap
  | AircheckRetro
  | AircheckPhono
  | MusicBox
  | DjKkRemix
deriving DecidableEq, Repr

/-- SongType::file_string. -/
def SongType.file_string : SongType → String
  | .Live => "live"
  | .Aircheck => "aircheck"
  | .AircheckCheap => "aircheck_cheap"
  | .AircheckRetro => "aircheck_retro"
  | .AircheckPhono => "aircheck_phono"
  | .MusicBox => "music_box"
  | .DjKkRemix => "dj_kk_remix"

/-- SongType::url_ending. -/
def SongType.url_ending : SongType → String
  | .Live => "%28Live%29.flac"
  | .Aircheck => "%28Aircheck%2C_Hi-Fi%29.flac"
  | .AircheckCheap => "%28Aircheck%2C_Cheap%29.flac"
  | .AircheckRetro => "%28Aircheck%2C_Retro%29.flac"
  | .AircheckPhono => "%28Aircheck%2C_Phono%29.flac"
  | .MusicBox => "%28Music_Box%29.flac"
  | .DjKkRemix => "%28DJ_KK_Remix%29.flac"

/-- The Debug rendering of a SongType used by format with a debug
specifier in download_song_of_type's MissingUrl message. -/
def SongType.debugString : SongType → String
  | .Live => "Live"
  | .Aircheck => "Aircheck"
  | .AircheckCheap => "AircheckCheap"
  | .AircheckRetro => "AircheckRetro"
  | .AircheckPhono => "AircheckPhono"
  | .MusicBox => "MusicBox"
  | .DjKkRemix => "DjKkRemix"

/-- The SongInfo struct of src/download/parser.rs.  The HashMap of song
file urls is modelled as an association list with unique keys; HashMap
iteration order is arbitrary, and the list order stands for it. -/
structure SongInfo where
  title : String
  number : Int
  wiki_url : String
  image_url : String
  song_file_urls : List (SongType × String)
deriving DecidableEq, Repr

/-- Association-list lookup, modelling HashMap::get. -/
def lookupUrl : List (SongType × String) → SongType → Option String
  | [], _ => none
  | (k, v) :: rest, key => if k = key then some v else lookupUrl rest key

/-- SongInfo::filelized_title on the character list of the title:
`self.title.to_lowercase().replace(' ', "_").replace('.', "")`.
Both replace patterns are single characters, so the two String::replace
calls are a per-character map (space to underscore) followed by a
removal filter (periods). -/
def filelizedTitleChars (title : List Char) : List Char :=
  (((title.map Char.toLower).map fun c => if c = ' ' then '_' else c).filter
    fun c => c ≠ '.')

/-- SongInfo::filelized_title. -/
def SongInfo.filelized_title (s : SongInfo) : String :=
  String.mk (filelizedTitleChars s.title.data)

/-! ## SongInfo::parse_document (src/download/parser.rs)

The scraper collaborator (HTML parsing and CSS selection) is external to
the modelled logic: a `DocumentView` records what the selectors find in
a given document.  The inner html of the ordinal element is kept as its
UTF-8 byte sequence, because `number_string[1..]` is a Rust *byte*
slice whose panic behaviour the code depends on. -/

/-- What the hard-coded selectors of parse_document extract from one
detail page document. -/
structure DocumentView where
  metaTitle : Option String
  metaUrl : Option String
  metaImage : Option String
  numberInnerHtml : Option (List Nat)
  songFileUrls : List (SongType × String)

/-- A UTF-8 continuation byte (0x80..=0xBF); an index sitting on one is
not a char boundary. -/
def isUtf8ContByte (b : Nat) : Bool := 128 ≤ b && b < 192

/-- Rust byte slicing `s[1..]`: panics (modelled as `none`) when 1 is
greater than the length or is not a character boundary; index 1 is a
boundary when it equals the length or the byte there is not a
continuation byte. -/
def rustSliceFrom1 : List Nat → Option (List Nat)
  | [] => none
  | _ :: rest =>
    match rest with
    | [] => some []
    | b :: _ => if isUtf8ContByte b then none else some rest

/-- Accumulate ASCII decimal digits; `none` when empty or any byte is
not a digit. -/
def parseDigits : List Nat → Option Nat
  | [] => none
  | bs =>
    bs.foldl
      (fun acc b =>
        acc.bind fun n =>
          if 48 ≤ b ∧ b ≤ 57 then some (n * 10 + (b - 48)) else none)
      (some 0)

/-- Rust `str::parse::<i32>`: optional sign, then one or more ASCII
digits, rejected when out of the i32 range. -/
def parseI32Bytes (bs : List Nat) : Option Int :=
  let signAndDigits : Int × List Nat :=
    match bs with
    | 43 :: rest => (1, rest)
    | 45 :: rest => (-1, rest)
    | _ => (1, bs)
  match parseDigits signAndDigits.2 with
  | none => none
  | some n =>
    let v : Int := signAndDigits.1 * n
    if -(2 ^ 31) ≤ v ∧ v ≤ 2 ^ 31 - 1 then some v else none

/-- Lossy rendering of the ordinal element bytes back to a string, used
only as the CouldNotParseNumber payload. -/
def asciiDecode (bs : List Nat) : String :=
  String.mk (bs.map fun b => Char.ofNat b)

/-- SongInfo::parse_document.  Required meta properties missing yield
MissingElement; the ordinal is read from the matched element's inner
html by slicing off its first byte and parsing the rest as an i32. -/
def parse_document (d : DocumentView) : Outcome SongInfo :=
  match d.metaTitle with
  | none => .err (.MissingElement "title")
  | some title =>
    match d.metaUrl with
    | none => .err (.MissingElement "url")
    | some wiki_url =>
      match d.metaImage with
      | none => .err (.MissingElement "image")
      | some image_url =>
        match d.numberInnerHtml with
        | none => .err (.MissingElement "number")
        | some numberBytes =>
          match rustSliceFrom1 numberBytes with
          | none => .panicked "byte index 1 out of bounds or not a char boundary"
          | some rest =>
            match parseI32Bytes rest with
            | none => .err (.CouldNotParseNumber (asciiDecode numberBytes))
            | some number =>
              .ok
                { title := title
                  number := number
                  wiki_url := wiki_url
                  image_url := image_url
                  song_file_urls := d.songFileUrls }

/-! ## Downloader (src/download/downloader.rs)

The local filesystem is an association list from filenames to byte
contents.  `File::create` truncates-or-creates; `write_all` appends to
the named file.  The code contains no remove/delete operation.  Network
and IO outcomes are supplied per attempt by oracle environments. -/

/-- MAX_TRIES constant of src/download/downloader.rs. -/
def MAX_TRIES : Nat := 3

/-- CONCURRENT_DOWNLOADS constant of src/download/downloader.rs. -/
def CONCURRENT_DOWNLOADS : Nat := 10

/-- The modelled local filesystem: filename to byte contents. -/
abbrev FS : Type := List (String × List Nat)

/-- File::create: truncate the file when present, create it empty
otherwise. -/
def fsCreate : FS → String → FS
  | [], name => [(name, [])]
  | (n, c) :: rest, name =>
    if n = name then (n, []) :: rest else (n, c) :: fsCreate rest name

/-- write_all on the handle created for `name`: append the chunk bytes
to that file. -/
def fsAppend : FS → String → List Nat → FS
  | [], name, bytes => [(name, bytes)]
  | (n, c) :: rest, name, bytes =>
    if n = name then (n, c ++ bytes) :: rest else (n, c) :: fsAppend rest name bytes

/-- Contents of a file, `none` when the path does not exist. -/
def fsGet : FS → String → Option (List Nat)
  | [], _ => none
  | (n, c) :: rest, name => if n = name then some c else fsGet rest name

/-- One outcome of `client.get(url).send()`: a transport failure, or a
response carrying an HTTP status code. -/
inductive ReqAttempt where
  | sendErr : String → ReqAttempt
  | status : Nat → ReqAttempt
deriving DecidableEq, Repr

/-- reqwest StatusCode::is_success: the 2xx class. -/
def isSuccessStatus (s : Nat) : Bool := 200 ≤ s && s < 300

/-- Result of Downloader::make_request together with how many times
`client.get(url).send()` ran. -/
structure ReqResult where
  result : Outcome Nat
  sends : Nat
deriving DecidableEq, Repr

/-- The `for try_counter in 1..=MAX_TRIES` loop body of make_request,
walking the list of remaining counter values; falling off the end of
the loop reaches the trailing `panic!` line. -/
def make_requestGo (oracle : Nat → ReqAttempt) (url : String) (maxTries : Nat) :
    List Nat → ReqResult
  | [] => ⟨.panicked "MAX_TRIES is not allowed to be 0", 0⟩
  | tc :: rest =>
    match oracle tc with
    | .sendErr e =>
      if tc = maxTries then ⟨.err (.RequestError e), 1⟩
      else
        let r := make_requestGo oracle url maxTries rest
        ⟨r.result, r.sends + 1⟩
    | .status s =>
      if isSuccessStatus s then ⟨.ok s, 1⟩
      else if tc = maxTries then ⟨.err (.ResponseStatusError s url), 1⟩
      else
        let r := make_requestGo oracle url maxTries rest
        ⟨r.result, r.sends + 1⟩

/-- Downloader::make_request: retry the GET over `1..=MAX_TRIES`
(modelled with the budget as a parameter), returning the first success,
the last error at the final counter, or panicking when the loop body
never runs. -/
def make_request (oracle : Nat → ReqAttempt) (url : String) (maxTries : Nat) : ReqResult :=
  make_requestGo oracle url maxTries (List.range' 1 maxTries)

/-- One chunk of the download byte stream: the chunk read result and,
when the read succeeds, whether writing it to the file succeeds. -/
structure ChunkStep where
  chunk : Except String (List Nat)
  writeOk : Bool

/-- The IO/network environment of one `for` iteration of
download_song_of_type. -/
structure AttemptEnv where
  createOk : Bool
  requestOracle : Nat → ReqAttempt
  chunks : List ChunkStep
  flushOk : Bool

/-- Result of the chunk `while` loop: finished the stream, or returned
an error from inside it. -/
inductive ChunkLoopResult where
  | done : FS → ChunkLoopResult
  | aborted : FS → Error → ChunkLoopResult

/-- The filesystem state carried by a chunk-loop result. -/
def ChunkLoopResult.fs : ChunkLoopResult → FS
  | .done fs => fs
  | .aborted fs _ => fs

/-- The `while let Some(chunk_result) = stream.next().await` loop of
download_song_of_type.  A failed chunk read or chunk write `continue`s
this while loop — skipping the chunk — unless the try counter equals
MAX_TRIES, in which case the function returns the error. -/
def runChunks (tc maxTries : Nat) (filename : String) :
    List ChunkStep → FS → ChunkLoopResult
  | [], fs => .done fs
  | step :: rest, fs =>
    match step.chunk with
    | .error e =>
      if tc = maxTries then .aborted fs (.RequestError e)
      else runChunks tc maxTries filename rest fs
    | .ok bytes =>
      if step.writeOk then
        runChunks tc maxTries filename rest (fsAppend fs filename bytes)
      else if tc = maxTries then .aborted fs (.FileError "write_all")
      else runChunks tc maxTries filename rest fs

/-- Result of one `for` iteration of download_song_of_type: fall
through to the next iteration, or return from the function. -/
inductive AttemptResult where
  | next : FS → AttemptResult
  | ret : FS → Outcome Unit → AttemptResult

/-- The filesystem state carried by an attempt result. -/
def AttemptResult.fs : AttemptResult → FS
  | .next fs => fs
  | .ret fs _ => fs

/-- One iteration of the `for try_counter in 1..MAX_TRIES` loop of
download_song_of_type: create (truncate) the file, issue make_request
(propagated by `?` on error), stream the chunks, flush.  A successful
flush logs and falls through to the next iteration: nothing exits the
loop on success. -/
def runAttempt (tc maxTries : Nat) (url filename : String) (env : AttemptEnv)
    (fs : FS) : AttemptResult :=
  if env.createOk then
    let fs := fsCreate fs filename
    match (make_request env.requestOracle url maxTries).result with
    | .err e => .ret fs (.err e)
    | .panicked m => .ret fs (.panicked m)
    | .ok _ =>
      match runChunks tc maxTries filename env.chunks fs with
      | .aborted fs e => .ret fs (.err e)
      | .done fs =>
        if env.flushOk then .next fs
        else if tc = maxTries then .ret fs (.err (.FileError "flush"))
        else .next fs
  else if tc = maxTries then .ret fs (.err (.FileError "create"))
  else .next fs

/-- Result of download_song_of_type together with how many `for`
iterations (download attempts) actually executed. -/
structure DsotResult where
  fs : FS
  outcome : Outcome Unit
  attempts : Nat

/-- The `for try_counter in 1..MAX_TRIES` loop of
download_song_of_type; falling off the end returns `Ok(())`. -/
def dsotLoop (maxTries : Nat) (url filename : String) (env : Nat → AttemptEnv) :
    List Nat → FS → DsotResult
  | [], fs => ⟨fs, .ok (), 0⟩
  | tc :: rest, fs =>
    match runAttempt tc maxTries url filename (env tc) fs with
    | .next fs =>
      let r := dsotLoop maxTries url filename env rest fs
      ⟨r.fs, r.outcome, r.attempts + 1⟩
    | .ret fs out => ⟨fs, out, 1⟩

/-- Downloader::download_song_of_type, with the retry budget as a
parameter (the code uses the constant MAX_TRIES): panic guard on a zero
budget, url lookup, then the retry loop over `1..MAX_TRIES`, an
exclusive range containing maxTries - 1 counters. -/
def download_song_of_type (maxTries : Nat) (song : SongInfo) (songType : SongType)
    (directory : String) (env : Nat → AttemptEnv) (fs : FS) : DsotResult :=
  if maxTries = 0 then
    ⟨fs, .panicked "MAX_SIZE is expected to be greater than 0 but was 0.", 0⟩
  else
    match lookupUrl song.song_file_urls songType with
    | none =>
      ⟨fs, .err (.MissingUrl (song.title ++ "(" ++ songType.debugString ++ ")")), 0⟩
    | some url =>
      dsotLoop maxTries url
        (directory ++ "/" ++ songType.file_string ++ ".flac") env
        (List.range' 1 (maxTries - 1)) fs

/-- Environment of one download_song call: whether creating the item
directory succeeds, and the per-asset attempt environments. -/
structure DownloadEnv where
  dirCreateOk : Bool
  assetEnv : SongType → Nat → AttemptEnv

/-- The `for song_type in song_info.song_file_urls.keys()` loop of
download_song: run each asset download, remembering whether any
errored; a panic aborts everything. -/
def downloadSongLoop (maxTries : Nat) (song : SongInfo) (directory : String)
    (env : DownloadEnv) : List SongType → FS → Bool → FS × Outcome Bool
  | [], fs, errorOccured => (fs, .ok errorOccured)
  | ty :: rest, fs, errorOccured =>
    let r := download_song_of_type maxTries song ty directory (env.assetEnv ty) fs
    match r.outcome with
    | .panicked m => (r.fs, .panicked m)
    | .err _ => downloadSongLoop maxTries song directory env rest r.fs true
    | .ok _ => downloadSongLoop maxTries song directory env rest r.fs errorOccured

/-- Downloader::download_song: an empty song_file_urls map is returned
as Err(MissingUrl) before anything else happens; otherwise the item
directory is derived from filelized_title, created, and every asset
kind in the map is downloaded, failures only setting a flag that turns
the final result into Err(MissingUrl). -/
def download_song (maxTries : Nat) (song : SongInfo) (directory : String)
    (env : DownloadEnv) (fs : FS) : FS × Outcome Unit :=
  if song.song_file_urls = [] then
    (fs, .err (.MissingUrl "Tried downloading songs without any song file urls."))
  else if env.dirCreateOk then
    match downloadSongLoop maxTries song
        (directory ++ "/" ++ song.filelized_title) env
        (song.song_file_urls.map Prod.fst) fs false with
    | (fs, .panicked m) => (fs, .panicked m)
    | (fs, .err e) => (fs, .err e)
    | (fs, .ok errorOccured) =>
      if errorOccured then
        (fs, .err (.MissingUrl "Could not download all files"))
      else (fs, .ok ())
  else (fs, .err (.FileError "create_dir_all"))

/-! ## Metadata phase of Downloader::download and get_all_song_infos -/

/-- The three artifacts of the metadata phase of Downloader::download:
the collected song_infos, the records serialized to song_infos.json,
and the list handed to download_all_songs.  In the code all three are
the same `Vec<SongInfo>` value. -/
structure MetadataPhaseResult where
  song_infos : List SongInfo
  snapshotRecords : List SongInfo
  downloadTargets : List SongInfo
deriving DecidableEq

/-- The metadata phase of Downloader::download: per-item fetch results
are filtered with `filter_map(|r| r.ok())`; the surviving list is
serialized to song_infos.json and then passed to download_all_songs. -/
def download_metadata_phase (results : List (Except Error SongInfo)) :
    MetadataPhaseResult :=
  let song_infos := results.filterMap fun r => r.toOption
  ⟨song_infos, song_infos, song_infos⟩

/-- Completion-order trace of the buffered stream of get_all_song_infos:
tasks are identified by input index, `order` lists the indices in the
order their futures complete, and completing task i yields the worker's
result on the i-th url. -/
def completionResults {α : Type} (order : List Nat) (urls : List String)
    (worker : String → α) : List (Nat × α) :=
  order.filterMap fun i => (urls.get? i).map fun u => (i, worker u)

/-- futures::StreamExt::buffered yields the buffered results in input
index order, regardless of the order the futures completed in. -/
def emitInOrder {α : Type} (n : Nat) (completed : List (Nat × α)) : List α :=
  (List.range n).filterMap fun i =>
    (completed.find? fun p => p.fst == i).map Prod.snd

/-- Downloader::get_all_song_infos: map get_song_info over the urls
with `.buffered(CONCURRENT_DOWNLOADS)` and collect.  The completion
order of the concurrent fetches is an arbitrary parameter; the worker
stands for get_song_info. -/
def get_all_song_infos (order : List Nat) (urls : List String)
    (worker : String → Except Error SongInfo) : List (Except Error SongInfo) :=
  emitInOrder urls.length (completionResults order urls worker)

/-! ## Concrete fixtures used by the claim evaluations -/

/-- A fixture item with one Live asset and a present image url. -/
def sampleSong : SongInfo :=
  { title := "Bubblegum K.K."
    number := 88
    wiki_url := "https://nookipedia.com/wiki/b"
    image_url := "https://x/cover.png"
    song_file_urls := [(SongType.Live, "https://x/a.flac")] }

/-- A request oracle whose every send succeeds with status 200. -/
def okOracle : Nat → ReqAttempt := fun _ => .status 200

/-- An attempt environment where everything succeeds and the stream
delivers one chunk [1]. -/
def allOkAttemptEnv : AttemptEnv :=
  { createOk := true, requestOracle := okOracle
    chunks := [⟨.ok [1], true⟩], flushOk := true }

/-- Every attempt fully succeeds. -/
def allOkEnv : Nat → AttemptEnv := fun _ => allOkAttemptEnv

/-- Every attempt fails at File::create. -/
def createFailEnv : Nat → AttemptEnv := fun _ =>
  { createOk := false, requestOracle := okOracle, chunks := [], flushOk := true }

/-- Attempt 1 writes chunk [7], then a chunk write fails mid-stream,
then the flush fails; attempt 2 fails at File::create. -/
def midStreamFailEnv : Nat → AttemptEnv := fun tc =>
  if tc = 1 then
    { createOk := true, requestOracle := okOracle
      chunks := [⟨.ok [7], true⟩, ⟨.ok [8], false⟩], flushOk := false }
  else
    { createOk := false, requestOracle := okOracle, chunks := [], flushOk := true }

/-- A download environment where every asset attempt fully succeeds. -/
def allOkDownloadEnv : DownloadEnv := ⟨true, fun _ _ => allOkAttemptEnv⟩

/-! ## Filesystem lemmas -/

theorem fsGet_fsCreate_self (fs : FS) (name : String) :
    fsGet (fsCreate fs name) name = some [] := by
  induction fs with
  | nil => simp [fsCreate, fsGet]
  | cons hd tl ih =>
    obtain ⟨n, c⟩ := hd
    by_cases h : n = name <;> simp [fsCreate, fsGet, h, ih]

theorem fsGet_fsCreate_ne (fs : FS) (fname name : String) (h : name ≠ fname) :
    fsGet (fsCreate fs fname) name = fsGet fs name := by
  induction fs with
  | nil => simp [fsCreate, fsGet, Ne.symm h]
  | cons hd tl ih =>
    obtain ⟨n, c⟩ := hd
    by_cases hn : n = fname
    · subst hn
      simp [fsCreate, fsGet, Ne.symm h]
    · simp [fsCreate, fsGet, hn, ih]

theorem fsGet_fsAppend_self (fs : FS) (name : String) (bytes : List Nat) :
    (fsGet (fsAppend fs name bytes) name).isSome = true := by
  induction fs with
  | nil => simp [fsAppend, fsGet]
  | cons hd tl ih =>
    obtain ⟨n, c⟩ := hd
    by_cases h : n = name <;> simp [fsAppend, fsGet, h, ih]

theorem fsGet_fsAppend_ne (fs : FS) (fname name : String) (bytes : List Nat)
    (h : name ≠ fname) :
    fsGet (fsAppend fs fname bytes) name = fsGet fs name := by
  induction fs with
  | nil => simp [fsAppend, fsGet, Ne.symm h]
  | cons hd tl ih =>
    obtain ⟨n, c⟩ := hd
    by_cases hn : n = fname
    · subst hn
      simp [fsAppend, fsGet, Ne.symm h]
    · simp [fsAppend, fsGet, hn, ih]

theorem fsGet_fsCreate_mono (fs : FS) (fname name : String)
    (h : (fsGet fs name).isSome = true) :
    (fsGet (fsCreate fs fname) name).isSome = true := by
  by_cases hn : name = fname
  · subst hn
    rw [fsGet_fsCreate_self]
    rfl
  · rw [fsGet_fsCreate_ne fs fname name hn]
    exact h

theorem fsGet_fsAppend_mono (fs : FS) (fname name : String) (bytes : List Nat)
    (h : (fsGet fs name).isSome = true) :
    (fsGet (fsAppend fs fname bytes) name).isSome = true := by
  by_cases hn : name = fname
  · subst hn
    exact fsGet_fsAppend_self fs name bytes
  · rw [fsGet_fsAppend_ne fs fname name bytes hn]
    exact h

/-! ## Preservation of filesystem predicates through the download loops

Every filesystem operation download_song_of_type performs touches only
the destination filename of the asset being downloaded; any predicate
on the filesystem closed under creating/appending to that filename is
an invariant of the whole download. -/

theorem runChunks_preserves (P : FS → Prop) (tc maxTries : Nat) (filename : String)
    (hA : ∀ fs bytes, P fs → P (fsAppend fs filename bytes))
    (steps : List ChunkStep) (fs : FS) (h : P fs) :
    P (runChunks tc maxTries filename steps fs).fs := by
  induction steps generalizing fs with
  | nil => simpa [runChunks, ChunkLoopResult.fs] using h
  | cons step rest ih =>
    rcases hch : step.chunk with e | bytes
    · simp only [runChunks, hch]
      split
      · simpa [ChunkLoopResult.fs] using h
      · exact ih fs h
    · simp only [runChunks, hch]
      split
      · exact ih (fsAppend fs filename bytes) (hA fs bytes h)
      · split
        · simpa [ChunkLoopResult.fs] using h
        · exact ih fs h

theorem runAttempt_preserves (P : FS → Prop) (tc maxTries : Nat)
    (url filename : String)
    (hC : ∀ fs, P fs → P (fsCreate fs filename))
    (hA : ∀ fs bytes, P fs → P (fsAppend fs filename bytes))
    (env : AttemptEnv) (fs : FS) (h : P fs) :
    P (runAttempt tc maxTries url filename env fs).fs := by
  by_cases hc : env.createOk
  case pos =>
    have h1 : P (fsCreate fs filename) := hC fs h
    have h2 := runChunks_preserves P tc maxTries filename hA env.chunks
      (fsCreate fs filename) h1
    unfold runAttempt
    rw [if_pos hc]
    rcases hm : (make_request env.requestOracle url maxTries).result with s | e | m
    · simp only [hm]
      rcases hr : runChunks tc maxTries filename env.chunks (fsCreate fs filename)
        with fs2 | ⟨fs2, e2⟩
      · rw [hr] at h2
        simp only [ChunkLoopResult.fs] at h2
        simp only [hr]
        split
        · simpa [AttemptResult.fs] using h2
        · split
          · simpa [AttemptResult.fs] using h2
          · simpa [AttemptResult.fs] using h2
      · rw [hr] at h2
        simp only [ChunkLoopResult.fs] at h2
        simp only [hr]
        simpa [AttemptResult.fs] using h2
    · simp only [hm]
      simpa [AttemptResult.fs] using h1
    · simp only [hm]
      simpa [AttemptResult.fs] using h1
  case neg =>
    unfold runAttempt
    rw [if_neg hc]
    split
    · simpa [AttemptResult.fs] using h
    · simpa [AttemptResult.fs] using h

theorem dsotLoop_preserves (P : FS → Prop) (maxTries : Nat) (url filename : String)
    (env : Nat → AttemptEnv)
    (hC : ∀ fs, P fs → P (fsCreate fs filename))
    (hA : ∀ fs bytes, P fs → P (fsAppend fs filename bytes))
    (l : List Nat) (fs : FS) (h : P fs) :
    P (dsotLoop maxTries url filename env l fs).fs := by
  induction l generalizing fs with
  | nil => simpa [dsotLoop] using h
  | cons tc rest ih =>
    have hra := runAttempt_preserves P tc maxTries url filename hC hA (env tc) fs h
    rcases hr : runAttempt tc maxTries url filename (env tc) fs with fs2 | ⟨fs2, out⟩
    · rw [hr] at hra
      simp only [AttemptResult.fs] at hra
      simp only [dsotLoop, hr]
      exact ih fs2 hra
    · rw [hr] at hra
      simp only [AttemptResult.fs] at hra
      simp only [dsotLoop, hr]
      exact hra

theorem download_song_of_type_preserves (P : FS → Prop) (maxTries : Nat)
    (song : SongInfo) (songType : SongType) (directory : String)
    (env : Nat → AttemptEnv)
    (hC : ∀ fs, P fs →
      P (fsCreate fs (directory ++ "/" ++ songType.file_string ++ ".flac")))
    (hA : ∀ fs bytes, P fs →
      P (fsAppend fs (directory ++ "/" ++ songType.file_string ++ ".flac") bytes))
    (fs : FS) (h : P fs) :
    P (download_song_of_type maxTries song songType directory env fs).fs := by
  unfold download_song_of_type
  split
  · simpa using h
  · rcases hu : lookupUrl song.song_file_urls songType with _ | url
    · simpa using h
    · exact dsotLoop_preserves P maxTries url _ env hC hA _ fs h

theorem downloadSongLoop_preserves (P : FS → Prop) (maxTries : Nat)
    (song : SongInfo) (directory : String) (env : DownloadEnv)
    (types : List SongType)
    (hC : ∀ ty, ty ∈ types → ∀ fs, P fs →
      P (fsCreate fs (directory ++ "/" ++ SongType.file_string ty ++ ".flac")))
    (hA : ∀ ty, ty ∈ types → ∀ fs bytes, P fs →
      P (fsAppend fs (directory ++ "/" ++ SongType.file_string ty ++ ".flac") bytes))
    (fs : FS) (flag : Bool) (h : P fs) :
    P (downloadSongLoop maxTries song directory env types fs flag).1 := by
  induction types generalizing fs flag with
  | nil => simpa [downloadSongLoop] using h
  | cons ty rest ih =>
    have hd := download_song_of_type_preserves P maxTries song ty directory
      (env.assetEnv ty)
      (hC ty (List.mem_cons_self ty rest))
      (hA ty (List.mem_cons_self ty rest)) fs h
    have hCr : ∀ ty2, ty2 ∈ rest → ∀ fs, P fs →
        P (fsCreate fs (directory ++ "/" ++ SongType.file_string ty2 ++ ".flac")) :=
      fun ty2 hm => hC ty2 (List.mem_cons_of_mem ty hm)
    have hAr : ∀ ty2, ty2 ∈ rest → ∀ fs bytes, P fs →
        P (fsAppend fs (directory ++ "/" ++ SongType.file_string ty2 ++ ".flac") bytes) :=
      fun ty2 hm => hA ty2 (List.mem_cons_of_mem ty hm)
    simp only [downloadSongLoop]
    rcases ho : (download_song_of_type maxTries song ty directory (env.assetEnv ty) fs).outcome
      with u | e | m
    · exact ih hCr hAr _ flag hd
    · exact ih hCr hAr _ true hd
    · exact hd

theorem download_song_preserves (P : FS → Prop) (maxTries : Nat)
    (song : SongInfo) (directory : String) (env : DownloadEnv)
    (hC : ∀ ty, ty ∈ song.song_file_urls.map Prod.fst → ∀ fs, P fs →
      P (fsCreate fs (directory ++ "/" ++ song.filelized_title ++ "/" ++
        SongType.file_string ty ++ ".flac")))
    (hA : ∀ ty, ty ∈ song.song_file_urls.map Prod.fst → ∀ fs bytes, P fs →
      P (fsAppend fs (directory ++ "/" ++ song.filelized_title ++ "/" ++
        SongType.file_string ty ++ ".flac") bytes))
    (fs : FS) (h : P fs) :
    P (download_song maxTries song directory env fs).1 := by
  unfold download_song
  split
  · simpa using h
  · split
    · have hl := downloadSongLoop_preserves P maxTries song
        (directory ++ "/" ++ song.filelized_title) env
        (song.song_file_urls.map Prod.fst) hC hA fs false h
      rcases hloop : downloadSongLoop maxTries song
          (directory ++ "/" ++ song.filelized_title) env
          (song.song_file_urls.map Prod.fst) fs false with ⟨fs2, out⟩
      rw [hloop] at hl
      rcases out with b | e | m
      · simp only [hloop]
        split <;> simpa using hl
      · simp only [hloop]
        simpa using hl
      · simp only [hloop]
        simpa using hl
    · simpa using h

/-! ## C1: cleanup of partial files on mid-stream failure -/

/-- C1, counterexample: the claim says that after a failing attempt of
download_song_of_type the destination path does not exist.  On a run
where attempt 1 writes chunk [7], then a chunk write fails mid-stream
and the flush fails, and attempt 2 cannot create the file, the
destination path still exists and holds the partial bytes [7]; no
deletion happens, and the whole call even returns Ok. -/
theorem c1_counterexample :
    fsGet (download_song_of_type MAX_TRIES sampleSong SongType.Live "out"
      midStreamFailEnv []).fs "out/live.flac" = some [7] ∧
    (download_song_of_type MAX_TRIES sampleSong SongType.Live "out"
      midStreamFailEnv []).outcome = .ok () := by
  constructor <;> rfl

/-- C1, amended: download_song_of_type never deletes any file — every
file present before a call is still present after it, whatever the
attempt environments do; retried attempts do not append to a truncated
file only because File::create truncates the destination to zero bytes
at the start of each attempt that manages to open it. -/
theorem c1_amended_no_deletion (maxTries : Nat) (song : SongInfo)
    (songType : SongType) (directory : String) (env : Nat → AttemptEnv)
    (fs : FS) (name : String)
    (h : (fsGet fs name).isSome = true) :
    (fsGet (download_song_of_type maxTries song songType directory env fs).fs
      name).isSome = true ∧
    ∀ (fs2 : FS) (fname : String), fsGet (fsCreate fs2 fname) fname = some [] := by
  constructor
  · exact download_song_of_type_preserves
      (fun fs => (fsGet fs name).isSome = true) maxTries song songType directory env
      (fun fs hp => fsGet_fsCreate_mono fs _ name hp)
      (fun fs bytes hp => fsGet_fsAppend_mono fs _ name bytes hp)
      fs h
  · exact fun fs2 fname => fsGet_fsCreate_self fs2 fname

/-- C1 witness: the no-deletion theorem applied to a concrete run. -/
theorem c1_amended_no_deletion_witness :
    ((fsGet [("keep.txt", [1])] "keep.txt").isSome = true) ∧
    ((fsGet (download_song_of_type MAX_TRIES sampleSong SongType.Live "out"
      midStreamFailEnv [("keep.txt", [1])]).fs "keep.txt").isSome = true) :=
  ⟨by rfl,
   (c1_amended_no_deletion MAX_TRIES sampleSong SongType.Live "out"
     midStreamFailEnv [("keep.txt", [1])] "keep.txt" (by rfl)).1⟩

/-! ## C2, C3: retry loop of download_song_of_type -/

/-- C2: with MAX_TRIES = 3 and an operation that fails on every
attempt (File::create fails each time), the retry loop of
download_song_of_type executes only 2 attempts — the Rust range
`1..MAX_TRIES` excludes MAX_TRIES — and then falls off the loop
returning Ok(()), not an error.  make_request, by contrast, does send
exactly 3 times and returns an error, as the claim states. -/
theorem c2_retry_exhaustion_eval :
    (download_song_of_type MAX_TRIES sampleSong SongType.Live "out"
      createFailEnv []).attempts = 2 ∧
    (download_song_of_type MAX_TRIES sampleSong SongType.Live "out"
      createFailEnv []).outcome = .ok () ∧
    (make_request (fun _ => .sendErr "connect failure") "u" MAX_TRIES).sends = 3 ∧
    (make_request (fun _ => .sendErr "connect failure") "u" MAX_TRIES).result
      = .err (.RequestError "connect failure") := by
  refine ⟨rfl, rfl, rfl, rfl⟩

/-- C3: with MAX_TRIES = 3 and an operation that succeeds on the very
first attempt, download_song_of_type still executes 2 full download
attempts — nothing exits the loop after a success, so the successful
download is re-executed.  make_request does return after its first
successful send. -/
theorem c3_no_early_exit_eval :
    (download_song_of_type MAX_TRIES sampleSong SongType.Live "out"
      allOkEnv []).outcome = .ok () ∧
    (download_song_of_type MAX_TRIES sampleSong SongType.Live "out"
      allOkEnv []).attempts = 2 ∧
    (make_request okOracle "u" MAX_TRIES).sends = 1 ∧
    (make_request okOracle "u" MAX_TRIES).result = .ok 200 := by
  refine ⟨rfl, rfl, rfl, rfl⟩

/-! ## C4: empty asset mapping -/

/-- C4, counterexample: an item whose asset mapping is empty is not a
no-op success — download_song returns Err(MissingUrl) for it. -/
theorem c4_counterexample :
    (download_song MAX_TRIES
      { title := "t", number := 1, wiki_url := "w", image_url := ""
        song_file_urls := [] } "out" allOkDownloadEnv []).2
      = .err (.MissingUrl "Tried downloading songs without any song file urls.") := by
  rfl

/-- C4, amended: for every item whose asset mapping is empty,
download_song returns Err(MissingUrl ...) before touching the
filesystem — an empty-assets item is treated as an error, not as a
no-op. -/
theorem c4_amended_empty_assets_err (maxTries : Nat) (song : SongInfo)
    (directory : String) (env : DownloadEnv) (fs : FS)
    (h : song.song_file_urls = []) :
    download_song maxTries song directory env fs =
      (fs, .err (.MissingUrl "Tried downloading songs without any song file urls.")) := by
  unfold download_song
  rw [if_pos h]

/-- C4 witness: the amended theorem applied to a concrete empty-assets
item. -/
theorem c4_amended_empty_assets_err_witness :
    (SongInfo.song_file_urls
      { title := "t", number := 1, wiki_url := "w", image_url := ""
        song_file_urls := [] } = ([] : List (SongType × String))) ∧
    (download_song MAX_TRIES
      { title := "t", number := 1, wiki_url := "w", image_url := ""
        song_file_urls := [] } "outdir" allOkDownloadEnv [("f", [2])] =
      ([("f", [2])],
        .err (.MissingUrl "Tried downloading songs without any song file urls."))) :=
  ⟨rfl,
   c4_amended_empty_assets_err MAX_TRIES
     { title := "t", number := 1, wiki_url := "w", image_url := ""
       song_file_urls := [] } "outdir" allOkDownloadEnv [("f", [2])] rfl⟩

/-! ## C5: zero retry budget -/

/-- When the counter list still ends with the value maxTries — as the
inclusive range `1..=MAX_TRIES` always does for a positive budget —
make_request's loop returns before falling through to its trailing
panic line. -/
theorem make_requestGo_no_panic (oracle : Nat → ReqAttempt) (url : String)
    (maxTries : Nat) (l : List Nat) (h : l.getLast? = some maxTries) :
    (make_requestGo oracle url maxTries l).result.isPanic = false := by
  induction l with
  | nil => simp [List.getLast?] at h
  | cons tc rest ih =>
    cases rest with
    | nil =>
      simp [List.getLast?] at h
      subst h
      rcases horc : oracle tc with e | s
      · simp [make_requestGo, horc, Outcome.isPanic]
      · by_cases hs : isSuccessStatus s
        · simp [make_requestGo, horc, hs, Outcome.isPanic]
        · simp [make_requestGo, horc, hs, Outcome.isPanic]
    | cons b t =>
      have h2 : (b :: t).getLast? = some maxTries := by
        rwa [List.getLast?_cons_cons] at h
      rcases horc : oracle tc with e | s
      · by_cases htc : tc = maxTries
        · subst htc
          simp [make_requestGo, horc, Outcome.isPanic]
        · simp only [make_requestGo, horc]
          rw [if_neg htc]
          exact ih h2
      · by_cases hs : isSuccessStatus s
        · simp [make_requestGo, horc, hs, Outcome.isPanic]
        · by_cases htc : tc = maxTries
          · subst htc
            simp [make_requestGo, horc, hs, Outcome.isPanic]
          · simp only [make_requestGo, horc]
            rw [if_neg hs, if_neg htc]
            exact ih h2

/-- make_request with the program's actual budget MAX_TRIES = 3 never
panics. -/
theorem make_request_no_panic (oracle : Nat → ReqAttempt) (url : String) :
    (make_request oracle url MAX_TRIES).result.isPanic = false :=
  make_requestGo_no_panic oracle url MAX_TRIES (List.range' 1 MAX_TRIES) (by rfl)

/-- At budget MAX_TRIES, one iteration of the retry loop never returns
a panicked outcome. -/
theorem runAttempt_no_panic (tc : Nat) (url filename : String)
    (env : AttemptEnv) (fs fs2 : FS) (out : Outcome Unit)
    (h : runAttempt tc MAX_TRIES url filename env fs = .ret fs2 out) :
    out.isPanic = false := by
  by_cases hc : env.createOk
  · unfold runAttempt at h
    rw [if_pos hc] at h
    rcases hm : (make_request env.requestOracle url MAX_TRIES).result with s | e | m
    · rw [hm] at h
      simp only at h
      rcases hr : runChunks tc MAX_TRIES filename env.chunks (fsCreate fs filename)
        with fs3 | ⟨fs3, e3⟩
      · rw [hr] at h
        simp only at h
        split at h
        · cases h
        · split at h
          · cases h
            simp [Outcome.isPanic]
          · cases h
      · rw [hr] at h
        simp only at h
        cases h
        simp [Outcome.isPanic]
    · rw [hm] at h
      simp only at h
      cases h
      simp [Outcome.isPanic]
    · have := make_request_no_panic env.requestOracle url
      rw [hm] at this
      simp [Outcome.isPanic] at this
  · unfold runAttempt at h
    rw [if_neg hc] at h
    split at h
    · cases h
      simp [Outcome.isPanic]
    · cases h

/-- At budget MAX_TRIES, the retry loop of download_song_of_type never
produces a panicked outcome. -/
theorem dsotLoop_no_panic (url filename : String) (env : Nat → AttemptEnv)
    (l : List Nat) (fs : FS) :
    (dsotLoop MAX_TRIES url filename env l fs).outcome.isPanic = false := by
  induction l generalizing fs with
  | nil => simp [dsotLoop, Outcome.isPanic]
  | cons tc rest ih =>
    rcases hr : runAttempt tc MAX_TRIES url filename (env tc) fs with fs2 | ⟨fs2, out⟩
    · simp only [dsotLoop, hr]
      exact ih fs2
    · simp only [dsotLoop, hr]
      exact runAttempt_no_panic tc url filename (env tc) fs fs2 out hr

/-- C5, counterexample: the claim says a retry budget of 0 is rejected
as a configuration error before any operation is invoked and that no
code path panics because the budget is zero.  In the code there is no
startup validation: with a budget of 0, download_song_of_type hits its
runtime panic guard and make_request falls through its loop to its
panic line — both panic rather than returning a configuration error. -/
theorem c5_counterexample :
    (download_song_of_type 0 sampleSong SongType.Live "out" allOkEnv []).outcome
      = .panicked "MAX_SIZE is expected to be greater than 0 but was 0." ∧
    (make_request okOracle "u" 0).result
      = .panicked "MAX_TRIES is not allowed to be 0" := by
  refine ⟨rfl, rfl⟩

/-- C5, amended: the zero-budget guard is a runtime panic inside
download_song_of_type and a trailing panic line in make_request, not a
startup configuration error; because the budget is the compile-time
constant MAX_TRIES = 3, neither panic path can execute in the shipped
program — at budget MAX_TRIES no environment makes either function
panic. -/
theorem c5_amended_no_panic_at_actual_budget :
    (∀ (song : SongInfo) (ty : SongType) (dir : String)
      (env : Nat → AttemptEnv) (fs : FS),
      (download_song_of_type MAX_TRIES song ty dir env fs).outcome.isPanic = false) ∧
    (∀ (oracle : Nat → ReqAttempt) (url : String),
      (make_request oracle url MAX_TRIES).result.isPanic = false) := by
  constructor
  · intro song ty dir env fs
    unfold download_song_of_type
    split
    · simp_all [MAX_TRIES]
    · rcases hu : lookupUrl song.song_file_urls ty with _ | url
      · simp [Outcome.isPanic]
      · exact dsotLoop_no_panic url _ env _ fs
  · exact make_request_no_panic

/-! ## C6: image download -/

/-- C6, counterexample: the claim says an item with an image URL gets
the image downloaded to image.<ext>.  Running download_song on an item
whose image_url is present (and whose one Live asset downloads
successfully) produces exactly one file, the Live flac — no image file
is ever created. -/
theorem c6_counterexample :
    sampleSong.image_url = "https://x/cover.png" ∧
    ((download_song MAX_TRIES sampleSong "out" allOkDownloadEnv []).1).map Prod.fst
      = ["out/bubblegum_kk/live.flac"] ∧
    fsGet (download_song MAX_TRIES sampleSong "out" allOkDownloadEnv []).1
      "out/bubblegum_kk/image.png" = none := by
  refine ⟨rfl, rfl, rfl⟩

/-- C6, amended: download_song never downloads the item's image — the
image URL is only carried inside the SongInfo metadata.  Every file a
download_song call creates is `<kindName>.flac` inside the item's
directory, for a kind present in the asset mapping; no `image.<ext>`
file is created and no image-extension validation exists. -/
theorem c6_amended_only_flac_assets (maxTries : Nat) (song : SongInfo)
    (directory : String) (env : DownloadEnv) (fs : FS) (name : String)
    (h0 : fsGet fs name = none)
    (h1 : (fsGet (download_song maxTries song directory env fs).1 name).isSome = true) :
    ∃ ty ∈ song.song_file_urls.map Prod.fst,
      name = directory ++ "/" ++ song.filelized_title ++ "/" ++
        ty.file_string ++ ".flac" := by
  by_contra hno
  push_neg at hno
  have hpres := download_song_preserves (fun fs => fsGet fs name = none)
    maxTries song directory env
    (fun ty hty fs2 hp => by
      dsimp only
      rw [fsGet_fsCreate_ne fs2 _ name (hno ty hty)]
      exact hp)
    (fun ty hty fs2 bytes hp => by
      dsimp only
      rw [fsGet_fsAppend_ne fs2 _ name bytes (hno ty hty)]
      exact hp)
    fs h0
  rw [hpres] at h1
  simp at h1

/-- C6 witness: the only-flac theorem applied to the concrete
successful run. -/
theorem c6_amended_only_flac_assets_witness :
    (fsGet ([] : FS) "out/bubblegum_kk/live.flac" = none) ∧
    ((fsGet (download_song MAX_TRIES sampleSong "out" allOkDownloadEnv []).1
      "out/bubblegum_kk/live.flac").isSome = true) ∧
    (∃ ty ∈ sampleSong.song_file_urls.map Prod.fst,
      "out/bubblegum_kk/live.flac" =
        "out" ++ "/" ++ sampleSong.filelized_title ++ "/" ++
          ty.file_string ++ ".flac") :=
  ⟨rfl, by rfl,
   c6_amended_only_flac_assets MAX_TRIES sampleSong "out" allOkDownloadEnv []
     "out/bubblegum_kk/live.flac" rfl (by rfl)⟩

/-! ## C7: per-item isolation of parse failures -/

/-- C7: a ParseError result for one item is dropped by the
`filter_map(|r| r.ok())` of Downloader::download, and every downstream
artifact of the metadata phase — the collected song_infos, the records
persisted to song_infos.json, and the inputs of download_all_songs —
is exactly what it would have been had the failing item not been there:
the other items are unaffected, in their original order. -/
theorem c7_parse_failure_isolated (e : Error)
    (rs1 rs2 : List (Except Error SongInfo)) :
    download_metadata_phase (rs1 ++ Except.error e :: rs2) =
      download_metadata_phase (rs1 ++ rs2) := by
  simp [download_metadata_phase, List.filterMap_append, List.filterMap_cons,
    Except.toOption]

/-! ## C8: order preservation of get_all_song_infos -/

/-- Inside the completion trace, the unique completed entry for index i
carries the worker's result on the i-th url, whatever position i has in
the completion order. -/
theorem find_completionResults {α : Type} (order : List Nat) (urls : List String)
    (worker : String → α) (i : Nat) (u : String)
    (hu : urls.get? i = some u) (hi : i ∈ order) :
    (completionResults order urls worker).find? (fun p => p.fst == i)
      = some (i, worker u) := by
  induction order with
  | nil => cases hi
  | cons j rest ih =>
    by_cases hj : j = i
    · subst hj
      simp only [completionResults, List.filterMap_cons, hu, Option.map_some']
      simp [List.find?]
    · rcases hv : urls.get? j with _ | v
      · simp only [completionResults, List.filterMap_cons, hv, Option.map_none']
        have hi2 : i ∈ rest := by
          rcases List.mem_cons.mp hi with h | h
          · exact absurd h.symm hj
          · exact h
        exact ih hi2
      · simp only [completionResults, List.filterMap_cons, hv, Option.map_some']
        have hi2 : i ∈ rest := by
          rcases List.mem_cons.mp hi with h | h
          · exact absurd h.symm hj
          · exact h
        rw [List.find?_cons_of_neg]
        · exact ih hi2
        · simp [hj]

/-- Collecting an all-some index function over `range l.length` is just
mapping over the list. -/
theorem range_filterMap_eq_map {α β : Type} (l : List α) (f : α → β)
    (g : Nat → Option β)
    (hg : ∀ i, i < l.length → g i = (l.get? i).map f) :
    (List.range l.length).filterMap g = l.map f := by
  induction l generalizing g with
  | nil => simp
  | cons a t ih =>
    rw [List.length_cons, List.range_succ_eq_map, List.filterMap_cons]
    have h0 : g 0 = some (f a) := by
      have := hg 0 (Nat.succ_pos _)
      simpa using this
    rw [h0, List.filterMap_map]
    have ht : (List.range t.length).filterMap (g ∘ Nat.succ) = t.map f := by
      refine ih (g ∘ Nat.succ) ?_
      intro i hi
      have := hg (i + 1) (Nat.succ_lt_succ hi)
      simpa using this
    rw [ht, List.map_cons]

/-- C8: get_all_song_infos is order-preserving — whatever order the
buffered concurrent fetches complete in (any permutation of the input
indices), the returned list is exactly the worker's results in input
order, with one result per input url at the matching index. -/
theorem c8_get_all_song_infos_order_preserving (order : List Nat)
    (urls : List String) (worker : String → Except Error SongInfo)
    (hperm : order.Perm (List.range urls.length)) :
    get_all_song_infos order urls worker = urls.map worker := by
  unfold get_all_song_infos emitInOrder
  refine range_filterMap_eq_map urls worker _ ?_
  intro i hi
  rcases hu : urls.get? i with _ | u
  · rw [List.get?_eq_getElem?] at hu
    simp [List.getElem?_eq_none_iff] at hu
    omega
  · have hmem : i ∈ order := hperm.mem_iff.mpr (List.mem_range.mpr hi)
    rw [find_completionResults order urls worker i u hu hmem]
    rfl

/-- C8 witness: a staggered completion order [2, 0, 1] over three urls
still yields the results in input order. -/
theorem c8_order_preserving_witness :
    ([2, 0, 1].Perm (List.range (["a", "b", "c"] : List String).length)) ∧
    (get_all_song_infos [2, 0, 1] ["a", "b", "c"]
        (fun u => Except.error (Error.error u))
      = (["a", "b", "c"] : List String).map
          (fun u => Except.error (Error.error u))) :=
  ⟨by decide,
   c8_get_all_song_infos_order_preserving [2, 0, 1] ["a", "b", "c"]
     (fun u => Except.error (Error.error u)) (by decide)⟩

/-! ## C9: filelized_title -/

theorem char_toNat_ofNat_valid (n : Nat) (h : n < 55296) :
    (Char.ofNat n).toNat = n := by
  have hv : n.isValidChar := Or.inl h
  rw [Char.ofNat, dif_pos hv]
  rfl

theorem toLower_toNat (c : Char) :
    (Char.toLower c).toNat =
      if 65 ≤ c.toNat ∧ c.toNat ≤ 90 then c.toNat + 32 else c.toNat := by
  simp only [Char.toLower]
  by_cases h : 65 ≤ c.toNat ∧ c.toNat ≤ 90
  · rw [if_pos h, if_pos h]
    exact char_toNat_ofNat_valid (c.toNat + 32) (by omega)
  · rw [if_neg h, if_neg h]

theorem toLower_ne_space (c : Char) (h : c ≠ ' ') : Char.toLower c ≠ ' ' := by
  intro he
  have h32 : (Char.toLower c).toNat = 32 := by rw [he]; rfl
  rw [toLower_toNat] at h32
  by_cases hr : 65 ≤ c.toNat ∧ c.toNat ≤ 90
  · rw [if_pos hr] at h32
    omega
  · rw [if_neg hr] at h32
    apply h
    have hc := Char.ofNat_toNat c
    rw [h32] at hc
    calc c = Char.ofNat 32 := hc.symm
    _ = ' ' := by decide

theorem toLower_ne_period (c : Char) (h : c ≠ '.') : Char.toLower c ≠ '.' := by
  intro he
  have h46 : (Char.toLower c).toNat = 46 := by rw [he]; rfl
  rw [toLower_toNat] at h46
  by_cases hr : 65 ≤ c.toNat ∧ c.toNat ≤ 90
  · rw [if_pos hr] at h46
    omega
  · rw [if_neg hr] at h46
    apply h
    have hc := Char.ofNat_toNat c
    rw [h46] at hc
    calc c = Char.ofNat 46 := hc.symm
    _ = '.' := by decide

theorem filelizedTitleChars_cons (c : Char) (rest : List Char) :
    filelizedTitleChars (c :: rest) =
      (if (if Char.toLower c = ' ' then '_' else Char.toLower c) ≠ '.' then
        (if Char.toLower c = ' ' then '_' else Char.toLower c) ::
          filelizedTitleChars rest
      else filelizedTitleChars rest) := by
  simp [filelizedTitleChars, List.filter_cons]

/-- C9: filelized_title is exactly the per-character cleanup the spec
describes — each space of the title becomes an underscore, each period
is dropped, every other character is lower-cased, order and
multiplicity are preserved — and the title "Bubblegum K.K." yields the
directory name "bubblegum_kk". -/
theorem c9_filelized_title_characterization :
    (∀ title : List Char, filelizedTitleChars title =
      title.filterMap fun c =>
        if c = ' ' then some '_'
        else if c = '.' then none
        else some (Char.toLower c)) ∧
    SongInfo.filelized_title sampleSong = "bubblegum_kk" := by
  constructor
  · intro title
    induction title with
    | nil => rfl
    | cons c rest ih =>
      rw [filelizedTitleChars_cons, List.filterMap_cons]
      by_cases hs : c = ' '
      · subst hs
        have h1 : Char.toLower ' ' = ' ' := by decide
        simp [h1, ih]
      · by_cases hp : c = '.'
        · subst hp
          have h1 : Char.toLower '.' = '.' := by decide
          simp [h1, hs, ih]
        · have h1 := toLower_ne_space c hs
          have h2 := toLower_ne_period c hp
          simp [hs, hp, h1, h2, ih]
  · rfl

/-! ## C10: parse_document panic on malformed ordinal text -/

/-- C10: when all three meta properties are present and the ordinal
element is found, but its inner html is either empty or its byte at
index 1 is a UTF-8 continuation byte (the first character is
multi-byte), the slice `number_string[1..]` panics: parse_document
aborts instead of returning a ParseError/CouldNotParseNumber Err
value. -/
theorem c10_parse_document_panics (d : DocumentView) (t u im : String)
    (bs : List Nat)
    (ht : d.metaTitle = some t) (hu : d.metaUrl = some u)
    (hi : d.metaImage = some im) (hn : d.numberInnerHtml = some bs)
    (hbad : bs = [] ∨
      ∃ b0 b1 rest, bs = b0 :: b1 :: rest ∧ isUtf8ContByte b1 = true) :
    parse_document d
      = .panicked "byte index 1 out of bounds or not a char boundary" := by
  unfold parse_document
  rw [ht, hu, hi, hn]
  rcases hbad with hbad | ⟨b0, b1, rest, hbs, hcont⟩
  · subst hbad
    rfl
  · subst hbs
    simp [rustSliceFrom1, hcont]

/-- C10 witness: a document whose ordinal element has empty inner html
makes parse_document panic. -/
theorem c10_parse_document_panics_witness :
    ((⟨some "t", some "u", some "i", some [], []⟩ : DocumentView).numberInnerHtml
      = some []) ∧
    (parse_document ⟨some "t", some "u", some "i", some [], []⟩
      = .panicked "byte index 1 out of bounds or not a char boundary") :=
  ⟨rfl,
   c10_parse_document_panics ⟨some "t", some "u", some "i", some [], []⟩
     "t" "u" "i" [] rfl rfl rfl rfl (Or.inl rfl)⟩

end KKSlider
